import Mathlib

/-!
Shallow embedding of the virtual-machine interpreter of `src/hw1.cpp`
(the C++ implementation of the register VM: `interpret`, the `VM` struct
and its helper methods, and the initial state built by `main`).

All machine words are `reg_t = uint32_t`; they are modelled as `Nat`
together with explicit reductions modulo `2^32` wherever the C code's
arithmetic can wrap.  The array table `index` and the word pool `memory`
are modelled as Lean lists; out-of-range C accesses (undefined behaviour)
are modelled by `List.getD`/`List.set`, and every concrete trace used in a
theorem below stays inside the allocated ranges, where the embedding and
the C code agree exactly.
-/

namespace HW1

/-- Modulus of the 32-bit machine words (`reg_t = uint32_t`). -/
def U32 : Nat := 4294967296

/-- 32-bit wrapping addition. -/
def add32 (a b : Nat) : Nat := (a + b) % U32

/-- 32-bit wrapping subtraction (two's complement). -/
def sub32 (a b : Nat) : Nat := (a + (U32 - b % U32)) % U32

/-- 32-bit wrapping multiplication. -/
def mul32 (a b : Nat) : Nat := (a * b) % U32

/-- 32-bit bitwise NAND, `~(b & c)` of hw1.cpp's NAN opcode. -/
def nand32 (b c : Nat) : Nat := 4294967295 - Nat.land b c % U32

/-- One slot of the array table: the C union `ArrayDef`.  The first
variant is `{size, offset}`; the second `{next, is_active}` aliases
`next` onto `size` and `is_active` onto `offset` (so `offset = 0` is
what the code reads as "inactive"). -/
structure ArrayDef where
  size : Nat
  offset : Nat
deriving DecidableEq

/-- Write the given words at consecutive positions starting at `dst`
(writes beyond the end of the list are dropped, as out-of-range C stores
are undefined; no trace below performs one). -/
def writeWords : List Nat → Nat → List Nat → List Nat
  | mem, _, [] => mem
  | mem, dst, w :: ws => writeWords (mem.set dst w) (dst + 1) ws

/-- Semantic `memmove` of `count` words from `src` to `dst`
(`Array::move` in hw1.cpp). -/
def memMove (mem : List Nat) (dst src count : Nat) : List Nat :=
  writeWords mem dst ((mem.drop src).take count)

/-- Semantic `memset 0` of `count` words at `dst` (`Array::clear`). -/
def memClear (mem : List Nat) (dst count : Nat) : List Nat :=
  writeWords mem dst (List.replicate count 0)

/-- `Array<reg_t>::resize`: `realloc` keeps the prefix, new elements are
value-initialised to zero. -/
def listGrow (mem : List Nat) (n : Nat) : List Nat :=
  mem.take n ++ List.replicate (n - mem.length) 0

/-- `Array<ArrayDef>::resize`: new slots are value-initialised to
`{0, 0}`. -/
def defGrow (l : List ArrayDef) (n : Nat) : List ArrayDef :=
  l.take n ++ List.replicate (n - l.length) ⟨0, 0⟩

/-- The interpreter state: the C++ `VM` struct of hw1.cpp, plus the two
byte streams of the I/O adapter (stdin to be consumed by INP, stdout
produced by OUT). -/
structure VM where
  free : Nat
  capacity : Nat
  progsize : Nat
  index : List ArrayDef
  unused : Nat
  memory : List Nat
  pc : Nat
  registers : Nat → Nat
  input : List Nat
  output : List Nat

/-- Read slot `i` of the array table (`vm.index[i]`). -/
def VM.getDef (vm : VM) (i : Nat) : ArrayDef := vm.index.getD i ⟨0, 0⟩

/-- `VM::set_next`: store `dst - ident - 1` into the `next` field of
slot `ident` (which aliases its `size` field); `offset` is untouched. -/
def VM.set_next (vm : VM) (ident dst : Nat) : VM :=
  let d := vm.getDef ident
  { vm with index := vm.index.set ident { d with size := sub32 dst (ident + 1) } }

/-- `VM::get_next`: `index[ident].next + ident + 1`. -/
def VM.get_next (vm : VM) (ident : Nat) : Nat :=
  add32 (vm.getDef ident).size (ident + 1)

/-- `VM::push_free`: link `ident` onto the head of the free chain. -/
def VM.push_free (vm : VM) (ident : Nat) : VM :=
  { vm.set_next ident vm.free with free := ident }

/-- `VM::push_new`: pop an identifier off the free chain, growing
(doubling) the table when the chain is empty. -/
def VM.push_new (vm : VM) : Nat × VM :=
  if vm.free ≠ 0 then
    (vm.free, { vm with free := vm.get_next vm.free })
  else
    let ident := vm.index.length
    let vm1 := { vm with free := ident + 1,
                         index := defGrow vm.index (mul32 vm.index.length 2) }
    (ident, vm1.set_next (vm1.index.length - 1) 0)

/-- The slot-update loop of `VM::shrink_hole`: every slot `i ≥ 1` whose
offset is `≥ offset` has it decremented by `size` (this includes the
slot of the array just deleted). -/
def shrinkSlots (offset size : Nat) : Nat → List ArrayDef → List ArrayDef
  | _, [] => []
  | i, d :: rest =>
    (if 1 ≤ i ∧ offset ≤ d.offset then { d with offset := sub32 d.offset size } else d)
      :: shrinkSlots offset size (i + 1) rest

/-- `VM::shrink_hole`: close the hole left by a deleted array by shifting
the memory above it down and adjusting the slot offsets. -/
def VM.shrink_hole (vm : VM) (offset size : Nat) : VM :=
  let used := sub32 vm.memory.length vm.unused
  let endp := add32 offset size
  { vm with memory := memMove vm.memory offset endp (sub32 used endp),
            index := shrinkSlots offset size 0 vm.index,
            unused := add32 vm.unused size }

/-- `VM::alloc_memory`: ensure `size` words are available, doubling the
pool when needed, then claim them. -/
def VM.alloc_memory (vm : VM) (size : Nat) : VM :=
  let vm1 :=
    if vm.unused < size then
      let used := sub32 vm.memory.length vm.unused
      let mem1 := listGrow vm.memory (mul32 (add32 used size) 2)
      { vm with memory := mem1, unused := sub32 mem1.length used }
    else vm
  { vm1 with unused := sub32 vm1.unused size }

/-- The slot-update loop of `VM::grow_program`: every slot `i ≥ 1` with
nonzero `is_active` has its offset shifted up by `extra`. -/
def growSlots (extra : Nat) : Nat → List ArrayDef → List ArrayDef
  | _, [] => []
  | i, d :: rest =>
    (if 1 ≤ i ∧ d.offset ≠ 0 then { d with offset := add32 d.offset extra } else d)
      :: growSlots extra (i + 1) rest

/-- `VM::grow_program`: enlarge the program region at the bottom of the
pool to `new_capacity` words, shifting everything above it up. -/
def VM.grow_program (vm : VM) (new_capacity : Nat) : VM :=
  let start := vm.capacity
  let extra := sub32 new_capacity start
  let vm1 := vm.alloc_memory extra
  let used := sub32 vm1.memory.length vm1.unused
  { vm1 with memory := memMove vm1.memory new_capacity start (sub32 used start),
             index := growSlots extra 0 vm1.index,
             capacity := new_capacity }

/-- Opcode field: bits 28..31 of the instruction word. -/
def opcode (w : Nat) : Nat := w / 2 ^ 28

/-- Register field A (bits 6..8). -/
def rA (w : Nat) : Nat := w / 2 ^ 6 % 8

/-- Register field B (bits 3..5). -/
def rB (w : Nat) : Nat := w / 2 ^ 3 % 8

/-- Register field C (bits 0..2). -/
def rC (w : Nat) : Nat := w % 8

/-- LDI register field (bits 25..27). -/
def rI (w : Nat) : Nat := w / 2 ^ 25 % 8

/-- LDI immediate field (bits 0..24). -/
def imm25 (w : Nat) : Nat := w % 2 ^ 25

/-- The error codes of hw1.cpp's `enum Error`. -/
inductive Err where
  | ERR_OK | ERR_INV | ERR_ARR | ERR_DEL | ERR_DIV | ERR_PRG | ERR_CHR | ERR_EOF
deriving DecidableEq

/-- Result of executing one decoded instruction: fall through to the
loop condition, halt (HLT), or fail with an error (`FAIL(err)`). -/
inductive StepRes where
  | ok (s : VM)
  | halt (s : VM)
  | fault (e : Err) (s : VM)

/-- MOV: `REG_A() = REG_C()? REG_B() : REG_A()` (an unconditional store
of a conditional value, exactly as in hw1.cpp). -/
def execMOV (cur : Nat) (vm : VM) : VM :=
  { vm with registers := (Function.update vm.registers (rA cur)
      (if vm.registers (rC cur) ≠ 0 then vm.registers (rB cur)
       else vm.registers (rA cur))) }

/-- LDA after its checks passed: `REG_A() = memory[array.offset + c]`. -/
def execLDA (cur : Nat) (vm : VM) : VM :=
  { vm with registers := (Function.update vm.registers (rA cur)
      (vm.memory.getD (add32 (vm.getDef (vm.registers (rB cur))).offset
        (vm.registers (rC cur))) 0)) }

/-- STA after its checks passed: `memory[array.offset + b] = REG_C()`. -/
def execSTA (cur : Nat) (vm : VM) : VM :=
  { vm with memory := (vm.memory.set
      (add32 (vm.getDef (vm.registers (rA cur))).offset (vm.registers (rB cur)))
      (vm.registers (rC cur))) }

/-- ADD: wrapping 32-bit addition into `REG_A()`. -/
def execADD (cur : Nat) (vm : VM) : VM :=
  { vm with registers := (Function.update vm.registers (rA cur)
      (add32 (vm.registers (rB cur)) (vm.registers (rC cur)))) }

/-- MUL: wrapping 32-bit multiplication into `REG_A()`. -/
def execMUL (cur : Nat) (vm : VM) : VM :=
  { vm with registers := (Function.update vm.registers (rA cur)
      (mul32 (vm.registers (rB cur)) (vm.registers (rC cur)))) }

/-- DIV with a nonzero divisor: unsigned (floor) division into
`REG_A()`; `Nat` division is exactly C's unsigned 32-bit division. -/
def execDIV (cur : Nat) (vm : VM) : VM :=
  { vm with registers := (Function.update vm.registers (rA cur)
      (vm.registers (rB cur) / vm.registers (rC cur))) }

/-- NAN: bitwise NAND into `REG_A()`. -/
def execNAN (cur : Nat) (vm : VM) : VM :=
  { vm with registers := (Function.update vm.registers (rA cur)
      (nand32 (vm.registers (rB cur)) (vm.registers (rC cur)))) }

/-- NEW: pop an identifier, record `{size, offset}` in its slot, claim
the storage, zero it, and store the identifier into `REG_B()`. -/
def execNEW (cur : Nat) (vm : VM) : VM :=
  let size := vm.registers (rC cur)
  let pn := vm.push_new
  let vm1 := pn.2
  let offset := sub32 vm1.memory.length vm1.unused
  let vm2 := { vm1 with index := vm1.index.set pn.1 ⟨size, offset⟩ }
  let vm3 := vm2.alloc_memory size
  { vm3 with memory := memClear vm3.memory offset size,
             registers := Function.update vm3.registers (rB cur) pn.1 }

/-- DEL after its checks passed: close the hole and push the identifier
onto the free chain. -/
def execDELok (cur : Nat) (vm : VM) : VM :=
  ((vm.shrink_hole (vm.getDef (vm.registers (rC cur))).offset
      (vm.getDef (vm.registers (rC cur))).size).push_free
    (vm.registers (rC cur)))

/-- OUT after its range check: append the byte to standard output. -/
def execOUT (cur : Nat) (vm : VM) : VM :=
  { vm with output := vm.output ++ [vm.registers (rC cur)] }

/-- INP: read a byte into `REG_C()`, or `0xFFFFFFFF` at end of input. -/
def execINP (cur : Nat) (vm : VM) : VM :=
  match vm.input with
  | [] => { vm with registers := Function.update vm.registers (rC cur) 4294967295 }
  | b :: rest =>
    { vm with registers := Function.update vm.registers (rC cur) b, input := rest }

/-- PRG with a nonzero active identifier: grow the program region when
the source is larger than the capacity, copy the source array to offset
0, set `progsize`, then jump to `REG_C()`.  (The slot of identifier 0 is
not touched.) -/
def execPRGload (cur : Nat) (vm : VM) : VM :=
  let a := vm.getDef (vm.registers (rB cur))
  let vm1 := if vm.capacity < a.size then vm.grow_program a.size else vm
  let a1 := if vm.capacity < a.size then vm1.getDef (vm.registers (rB cur)) else a
  { vm1 with progsize := a1.size,
             memory := memMove vm1.memory 0 a1.offset a1.size,
             pc := vm.registers (rC cur) }

/-- LDI: store the 25-bit immediate into the register named by bits
25..27. -/
def execLDI (cur : Nat) (vm : VM) : VM :=
  { vm with registers := (Function.update vm.registers (rI cur) (imm25 cur)) }

/-- LDA with its two `FAIL(ERR_ARR)` checks: identifier out of table
range, or (inactive and nonzero), or index past the recorded size. -/
def stepLDA (cur : Nat) (vm : VM) : StepRes :=
  if vm.index.length ≤ vm.registers (rB cur) then .fault .ERR_ARR vm
  else if ((vm.getDef (vm.registers (rB cur))).offset = 0 ∧ vm.registers (rB cur) ≠ 0)
      ∨ (vm.getDef (vm.registers (rB cur))).size ≤ vm.registers (rC cur) then
    .fault .ERR_ARR vm
  else .ok (execLDA cur vm)

/-- STA with its two `FAIL(ERR_ARR)` checks (mirroring LDA, with the
identifier in `R[A]` and the element index in `R[B]`). -/
def stepSTA (cur : Nat) (vm : VM) : StepRes :=
  if vm.index.length ≤ vm.registers (rA cur) then .fault .ERR_ARR vm
  else if ((vm.getDef (vm.registers (rA cur))).offset = 0 ∧ vm.registers (rA cur) ≠ 0)
      ∨ (vm.getDef (vm.registers (rA cur))).size ≤ vm.registers (rB cur) then
    .fault .ERR_ARR vm
  else .ok (execSTA cur vm)

/-- DIV with its `FAIL(ERR_DIV)` check on a zero divisor. -/
def stepDIV (cur : Nat) (vm : VM) : StepRes :=
  if vm.registers (rC cur) = 0 then .fault .ERR_DIV vm else .ok (execDIV cur vm)

/-- DEL with its three `FAIL(ERR_DEL)` checks: identifier 0, identifier
out of table range, or `is_active` (the aliased offset field) zero. -/
def stepDEL (cur : Nat) (vm : VM) : StepRes :=
  if vm.registers (rC cur) = 0 then .fault .ERR_DEL vm
  else if vm.index.length ≤ vm.registers (rC cur) then .fault .ERR_DEL vm
  else if (vm.getDef (vm.registers (rC cur))).offset = 0 then .fault .ERR_DEL vm
  else .ok (execDELok cur vm)

/-- OUT with its `FAIL(ERR_CHR)` range check. -/
def stepOUT (cur : Nat) (vm : VM) : StepRes :=
  if 255 < vm.registers (rC cur) then .fault .ERR_CHR vm else .ok (execOUT cur vm)

/-- PRG: `R[B] = 0` is a plain jump; otherwise the identifier is checked
(`FAIL(ERR_ARR)` out of range, `FAIL(ERR_PRG)` inactive) and the program
image is replaced before the jump. -/
def stepPRG (cur : Nat) (vm : VM) : StepRes :=
  if vm.registers (rB cur) = 0 then .ok { vm with pc := vm.registers (rC cur) }
  else if vm.index.length ≤ vm.registers (rB cur) then .fault .ERR_ARR vm
  else if (vm.getDef (vm.registers (rB cur))).offset = 0 then .fault .ERR_PRG vm
  else .ok (execPRGload cur vm)

/-- Execute one decoded instruction word on a state whose `pc` has
already been advanced past it: the switch statement of `interpret` in
hw1.cpp, including every `FAIL` path (opcodes 14, 15 and the
unreachable fall-through all give `ERR_INV`). -/
def execInstr (cur : Nat) (vm : VM) : StepRes :=
  if opcode cur = 0 then .ok (execMOV cur vm)
  else if opcode cur = 1 then stepLDA cur vm
  else if opcode cur = 2 then stepSTA cur vm
  else if opcode cur = 3 then .ok (execADD cur vm)
  else if opcode cur = 4 then .ok (execMUL cur vm)
  else if opcode cur = 5 then stepDIV cur vm
  else if opcode cur = 6 then .ok (execNAN cur vm)
  else if opcode cur = 7 then .halt vm
  else if opcode cur = 8 then .ok (execNEW cur vm)
  else if opcode cur = 9 then stepDEL cur vm
  else if opcode cur = 10 then stepOUT cur vm
  else if opcode cur = 11 then .ok (execINP cur vm)
  else if opcode cur = 12 then stepPRG cur vm
  else if opcode cur = 13 then .ok (execLDI cur vm)
  else .fault .ERR_INV vm

/-- The word the dispatch loop fetches next: `vm.memory[vm.pc]`. -/
def fetch (vm : VM) : Nat := vm.memory.getD vm.pc 0

/-- One cycle of the dispatch loop body: fetch `memory[pc]`, increment
`pc`, execute.  Note that hw1.cpp performs the fetch unconditionally;
the bound check `pc < progsize` sits in the `while` condition and is
only evaluated after the body. -/
def stepCycle (vm : VM) : StepRes :=
  execInstr (fetch vm) { vm with pc := add32 vm.pc 1 }

/-- The `do { ... } while (pc < progsize); FAIL(ERR_EOF)` loop of
`interpret`, with explicit fuel (`none` = fuel exhausted).  The body
runs once before the condition is first tested, exactly as in the C
code. -/
def runLoop : Nat → VM → Option (Err × VM)
  | 0, _ => none
  | fuel + 1, vm =>
    match stepCycle vm with
    | .halt s => some (.ERR_OK, s)
    | .fault e s => some (e, s)
    | .ok s => if s.pc < s.progsize then runLoop fuel s else some (.ERR_EOF, s)

/-- Run exactly `n` non-halting, non-faulting cycles (for inspecting
intermediate reachable states). -/
def stepN : Nat → VM → Option VM
  | 0, vm => some vm
  | n + 1, vm =>
    match stepCycle vm with
    | .ok s => stepN n s
    | _ => none

/-- The array table built by `main`: 256 zeroed slots, slot 0 set to
`{program length, 0}`, and `set_next(255, 0)` storing `-256`. -/
def initIndex (proglen : Nat) : List ArrayDef :=
  (⟨proglen, 0⟩ : ArrayDef) ::
    (List.replicate 254 (⟨0, 0⟩ : ArrayDef) ++ [(⟨4294967040, 0⟩ : ArrayDef)])

/-- The state `main` passes to `interpret`: the program words occupy the
memory pool, `capacity = progsize = length`, free chain head 1, all
registers zero, `pc = 0`. -/
def initVM (prog : List Nat) (input : List Nat) : VM :=
  { free := 1, capacity := prog.length, progsize := prog.length,
    index := initIndex prog.length, unused := 0, memory := prog,
    pc := 0, registers := fun _ => 0, input := input, output := [] }

/-- Destination register of the six pure register ops (MOV, ADD, MUL,
DIV, NAN, LDI): the LDI register field for opcode 13, the A field
otherwise. -/
def aluDest (cur : Nat) : Nat := if opcode cur = 13 then rI cur else rA cur

/-- The state `interpret` receives from `main` for an empty (0-byte)
program file, except that the word the out-of-bounds first fetch reads
is made visible: the C code reads `memory[0]` of a zero-length buffer
(undefined behaviour), and this state gives that read a concrete
value, the HLT word 0x70000000. -/
def c1vm : VM := { initVM [] [] with memory := [1879048192] }

/-- Program for C2: `LDI R1 := 2; NEW R2 := alloc(R1); PRG R2, R0`
(words 0xD2000002, 0x80000011, 0xC0000010).  The PRG replaces the
3-word program image with the zero-filled 2-word array 1. -/
def c2prog : List Nat := [3523215362, 2147483665, 3221225488]

/-- Program for C4: `LDI R1 := 1; NEW R2; DEL R2; DEL R2; HLT`.  The
second DEL targets the identifier freed by the first one. -/
def c4prog : List Nat := [3523215361, 2147483665, 2415919106, 2415919106, 1879048192]

/-- Program for C5: `LDI R1 := 1; NEW R2; NEW R3; DEL R2; DEL R3;
LDA R4 := R3[R0]; HLT`.  The LDA targets identifier 2, freed by the
preceding DEL. -/
def c5prog : List Nat :=
  [3523215361, 2147483665, 2147483673, 2415919106, 2415919107, 268435736, 1879048192]

/-- Program for C6: `LDI R1 := 1; NEW R2; DEL R2; DEL R2; NEW R3;
NEW R4; HLT`.  The double DEL corrupts the free chain into a self-loop
at identifier 1, after which both NEWs pop identifier 1. -/
def c6prog : List Nat :=
  [3523215361, 2147483665, 2415919106, 2415919106, 2147483673, 2147483681, 1879048192]

/-- Program for C3, 36 words.  Stage 1 (addresses 0..34): allocate
identifier 1 (size 1) and identifier 2 (size 4), run a loop doing 32
more unit allocations (identifiers 3..34), DEL identifier 1 (leaving
its slot with the stale descriptor `{33, 35}`, whose nonzero offset
field still reads as active), store the three words `DEL R1; STA
R2[R0] := R2; HLT` into array 2, and PRG to array 2.  Stage 2 (the
copied image): the DEL of stale identifier 1 wrongly passes the
`is_active` check and shifts every slot offset down by 33, moving the
still-active source array 2's descriptor from offset 36 to offset 3 —
inside the program image; the following STA to source array 2 then
overwrites image word 3. -/
def c3prog : List Nat :=
  [3523215361, 2147483665, 3523215364, 2147483665, 3523215361, 1610613120,
   3724541984, 2147483665, 805306878, 3623878669, 3590324231, 287, 3221225476,
   2415919105, 3556769794, 3674210304, 3690987536, 1073742190, 3623878665,
   1073742117, 3690987521, 805306662, 3590324224, 536871068, 3623878658,
   1073742117, 3690987650, 805306662, 3590324225, 536871068, 3623878663,
   1073742117, 3590324226, 536871068, 3221225488, 0]

/-- One-word program `DIV R0 := R0 / R0` (word 0x50000000); all
registers start at zero, so the divisor is zero. -/
def vmDIV : VM := initVM [1342177280] []

/-- One-word program `ADD R0 := R0 + R0` (word 0x30000000). -/
def vmADD : VM := initVM [805306368] []

/-- One-word program `PRG` with zero B and C fields (word 0xC0000000). -/
def vmJMP : VM := initVM [3221225472] []

/-- The state produced by executing the ADD of `vmADD`. -/
def sADD : VM := execADD (fetch vmADD) { vmADD with pc := add32 vmADD.pc 1 }

/-- Every `FAIL` path of LDA returns the state unchanged. -/
theorem stepLDA_fault (cur : Nat) (w s : VM) (e : Err) (h : stepLDA cur w = .fault e s) :
    s = w := by
  unfold stepLDA at h
  split at h
  · cases h; rfl
  · split at h
    · cases h; rfl
    · cases h

/-- Every `FAIL` path of STA returns the state unchanged. -/
theorem stepSTA_fault (cur : Nat) (w s : VM) (e : Err) (h : stepSTA cur w = .fault e s) :
    s = w := by
  unfold stepSTA at h
  split at h
  · cases h; rfl
  · split at h
    · cases h; rfl
    · cases h

/-- The `FAIL` path of DIV returns the state unchanged. -/
theorem stepDIV_fault (cur : Nat) (w s : VM) (e : Err) (h : stepDIV cur w = .fault e s) :
    s = w := by
  unfold stepDIV at h
  split at h
  · cases h; rfl
  · cases h

/-- Every `FAIL` path of DEL returns the state unchanged. -/
theorem stepDEL_fault (cur : Nat) (w s : VM) (e : Err) (h : stepDEL cur w = .fault e s) :
    s = w := by
  unfold stepDEL at h
  split at h
  · cases h; rfl
  · split at h
    · cases h; rfl
    · split at h
      · cases h; rfl
      · cases h

/-- The `FAIL` path of OUT returns the state unchanged. -/
theorem stepOUT_fault (cur : Nat) (w s : VM) (e : Err) (h : stepOUT cur w = .fault e s) :
    s = w := by
  unfold stepOUT at h
  split at h
  · cases h; rfl
  · cases h

/-- Every `FAIL` path of PRG returns the state unchanged. -/
theorem stepPRG_fault (cur : Nat) (w s : VM) (e : Err) (h : stepPRG cur w = .fault e s) :
    s = w := by
  unfold stepPRG at h
  split at h
  · cases h
  · split at h
    · cases h; rfl
    · split at h
      · cases h; rfl
      · cases h

/-- Whenever the switch of `interpret` reaches a `FAIL`, the state it
reports is exactly the state the instruction started from. -/
theorem execInstr_fault (cur : Nat) (w s : VM) (e : Err) (h : execInstr cur w = .fault e s) :
    s = w := by
  unfold execInstr at h
  by_cases h0 : opcode cur = 0
  · rw [if_pos h0] at h; cases h
  rw [if_neg h0] at h
  by_cases h1 : opcode cur = 1
  · rw [if_pos h1] at h; exact stepLDA_fault _ _ _ _ h
  rw [if_neg h1] at h
  by_cases h2 : opcode cur = 2
  · rw [if_pos h2] at h; exact stepSTA_fault _ _ _ _ h
  rw [if_neg h2] at h
  by_cases h3 : opcode cur = 3
  · rw [if_pos h3] at h; cases h
  rw [if_neg h3] at h
  by_cases h4 : opcode cur = 4
  · rw [if_pos h4] at h; cases h
  rw [if_neg h4] at h
  by_cases h5 : opcode cur = 5
  · rw [if_pos h5] at h; exact stepDIV_fault _ _ _ _ h
  rw [if_neg h5] at h
  by_cases h6 : opcode cur = 6
  · rw [if_pos h6] at h; cases h
  rw [if_neg h6] at h
  by_cases h7 : opcode cur = 7
  · rw [if_pos h7] at h; cases h
  rw [if_neg h7] at h
  by_cases h8 : opcode cur = 8
  · rw [if_pos h8] at h; cases h
  rw [if_neg h8] at h
  by_cases h9 : opcode cur = 9
  · rw [if_pos h9] at h; exact stepDEL_fault _ _ _ _ h
  rw [if_neg h9] at h
  by_cases h10 : opcode cur = 10
  · rw [if_pos h10] at h; exact stepOUT_fault _ _ _ _ h
  rw [if_neg h10] at h
  by_cases h11 : opcode cur = 11
  · rw [if_pos h11] at h; cases h
  rw [if_neg h11] at h
  by_cases h12 : opcode cur = 12
  · rw [if_pos h12] at h; exact stepPRG_fault _ _ _ _ h
  rw [if_neg h12] at h
  by_cases h13 : opcode cur = 13
  · rw [if_pos h13] at h; cases h
  rw [if_neg h13] at h
  cases h; rfl

set_option maxRecDepth 40000 in
/-- C1: the claim says every cycle of the dispatch loop, including the
very first, checks `PC < progsize` before fetching, and raises the
pc-out-of-bounds fault with no fetch otherwise.  The code's do-while
structure only tests the bound after the body, so the very first fetch
is unguarded: started on the empty program (`progsize = 0`, `PC = 0`)
`interpret` still fetches and executes the word at index 0 — an
out-of-bounds read of a zero-length buffer.  First conjunct: giving
that read the value HLT makes the run return `ERR_OK` instead of
`ERR_EOF`; second conjunct: on the empty program itself the reported
`ERR_EOF` state has `pc = 1`, i.e. a full fetch-execute cycle ran
before the fault. -/
theorem C1_first_fetch_unguarded :
    (runLoop 5 c1vm).map Prod.fst = some Err.ERR_OK ∧
    (runLoop 5 (initVM [] [])).map (fun p => (p.1, p.2.pc)) = some (Err.ERR_EOF, 1) := by
  decide

set_option maxRecDepth 40000 in
/-- C2: the claim says array 0's descriptor always describes the current
program image, its recorded length tracking the image's length across
every PRG.  Running `c2prog` (which PRGs to a fresh 2-word array) ends
with `index[0].size = 3` (the original length) while `progsize = 2`:
PRG in hw1.cpp updates `progsize` and copies the image but never
touches slot 0 of the table. -/
theorem C2_index0_not_updated :
    (runLoop 10 (initVM c2prog [])).map
      (fun p => (p.1, (p.2.getDef 0).size, p.2.progsize)) = some (Err.ERR_EOF, 3, 2) := by
  decide

set_option maxRecDepth 40000 in
/-- C3: the claim says that after PRG from an active array, later STA
writes to that source array never alter the program image.  Running
`c3prog`: after 221 cycles the PRG from array 2 has just executed and
image word 3 equals 0 (= source word 3 at that moment); cycle 222 is a
DEL of a stale freed identifier that wrongly passes the `is_active`
check and shifts array 2's offset into the image region; cycle 223 is
an STA to the still-active source array 2, after which image word 3 is
2 — the image was altered by a store to the source array — and the run
then halts normally. -/
theorem C3_sta_source_clobbers_image :
    (stepN 221 (initVM c3prog [])).map (fun s => (s.progsize, s.memory.getD 3 0))
      = some (4, 0) ∧
    (stepN 223 (initVM c3prog [])).map (fun s => (s.progsize, s.memory.getD 3 0))
      = some (4, 2) ∧
    (runLoop 300 (initVM c3prog [])).map (fun p => (p.1, p.2.memory.getD 3 0))
      = some (Err.ERR_OK, 2) := by
  decide

set_option maxRecDepth 40000 in
/-- C4: the claim says DEL of a currently-free identifier raises the
bad-delete fault.  Running `c4prog`: after 3 cycles identifier 1
(held in R2) has been freed and heads the free chain (`free = 1`), yet
the whole run — whose 4th instruction is a second `DEL R2` — completes
with `ERR_OK`: the freed slot kept a nonzero stale `offset`
(`is_active`) field, so the check `!array.is_active` does not fire. -/
theorem C4_del_freed_no_fault :
    (stepN 3 (initVM c4prog [])).map (fun s => (s.free, s.registers 2)) = some (1, 1) ∧
    (runLoop 10 (initVM c4prog [])).map Prod.fst = some Err.ERR_OK := by
  decide

set_option maxRecDepth 40000 in
/-- C5: the claim says LDA of a freed identifier raises the
inactive-array fault.  Running `c5prog`: after 5 cycles identifier 2
(held in R3) has been freed and heads the free chain (`free = 2`), yet
the following `LDA R4 := R3[R0]` does not fault — the run completes
with `ERR_OK` and R4 holds 0x70000000, a word read through the freed
slot's stale descriptor (its chain-encoded `size` field is 2^32 - 2,
defeating the bound check, and its stale `offset` is nonzero). -/
theorem C5_lda_freed_no_fault :
    (stepN 5 (initVM c5prog [])).map (fun s => (s.free, s.registers 3)) = some (2, 2) ∧
    (runLoop 12 (initVM c5prog [])).map (fun p => (p.1, p.2.registers 4))
      = some (Err.ERR_OK, 1879048192) := by
  decide

set_option maxRecDepth 40000 in
/-- C6: the claim says every NEW returns an identifier that was not
active immediately before.  Running `c6prog`: the double DEL corrupts
the free chain into a self-loop, so after 5 cycles the first NEW has
made identifier 1 active again (slot `{1, 7}`, R3 = 1) while `free`
still points at 1; the second NEW then returns identifier 1 a second
time (R4 = 1) even though it is active, silently overwriting the live
descriptor. -/
theorem C6_new_not_fresh :
    (stepN 5 (initVM c6prog [])).map
      (fun s => (s.free, s.registers 3, (s.getDef 1).size, (s.getDef 1).offset))
      = some (1, 1, 1, 7) ∧
    (runLoop 12 (initVM c6prog [])).map (fun p => (p.1, p.2.registers 3, p.2.registers 4))
      = some (Err.ERR_OK, 1, 1) := by
  decide

/-- C7: a DIV cycle raises the division-by-zero fault, leaving the
state untouched apart from the fetch's pc increment, exactly when
`R[C] = 0`; otherwise it stores the floor of the unsigned division
`R[B] / R[C]` (Nat division of values below 2^32) into `R[A]` and does
not fault. -/
theorem C7_div_iff (vm : VM) (hop : opcode (fetch vm) = 5) :
    (vm.registers (rC (fetch vm)) = 0 →
      stepCycle vm = .fault .ERR_DIV { vm with pc := add32 vm.pc 1 }) ∧
    (vm.registers (rC (fetch vm)) ≠ 0 →
      stepCycle vm = .ok { vm with pc := add32 vm.pc 1
                                   registers := (Function.update vm.registers (rA (fetch vm))
                                     (vm.registers (rB (fetch vm)) / vm.registers (rC (fetch vm)))) }) := by
  simp only [stepCycle, execInstr]
  rw [hop]
  norm_num
  constructor
  · intro hc
    simp [stepDIV, hc]
  · intro hc
    simp [stepDIV, hc, execDIV]

/-- C7 witness: on the one-word program `DIV R0 := R0 / R0` with all
registers zero, the cycle faults with `ERR_DIV` and only the pc
changed. -/
theorem C7_witness :
    stepCycle vmDIV = .fault .ERR_DIV { vmDIV with pc := add32 vmDIV.pc 1 } :=
  (C7_div_iff vmDIV (by decide)).1 (by decide)

/-- C8: a PRG cycle whose `R[B]` is zero never faults, whatever the
array table holds, and its entire effect is `PC := R[C]`: the resulting
state is the input state with only the pc replaced — program image,
array table, free chain, registers and both I/O streams unchanged. -/
theorem C8_prg_zero_jump (vm : VM) (hop : opcode (fetch vm) = 12)
    (hb : vm.registers (rB (fetch vm)) = 0) :
    stepCycle vm = .ok { vm with pc := vm.registers (rC (fetch vm)) } := by
  simp only [stepCycle, execInstr]
  rw [hop]
  norm_num
  simp [stepPRG, hb]

/-- C8 witness: the one-word program `PRG` with zero B and C fields
jumps to `R0 = 0` and changes nothing else. -/
theorem C8_witness :
    stepCycle vmJMP = .ok { vmJMP with pc := vmJMP.registers (rC (fetch vmJMP)) } :=
  C8_prg_zero_jump vmJMP (by decide) (by decide)

/-- C9: whenever a cycle raises a fault, the reported state has the
registers, the array table, the free-chain head, the memory pool
(hence the program image `memory[0..progsize)`), `progsize`,
`capacity`, `unused` and both I/O streams exactly as they were before
the instruction executed: every `FAIL` in hw1.cpp happens before any
mutation of the instruction's handler. -/
theorem C9_fault_preserves_state (vm s : VM) (e : Err) (h : stepCycle vm = .fault e s) :
    s.registers = vm.registers ∧ s.index = vm.index ∧ s.free = vm.free ∧
    s.memory = vm.memory ∧ s.progsize = vm.progsize ∧ s.capacity = vm.capacity ∧
    s.unused = vm.unused ∧ s.input = vm.input ∧ s.output = vm.output := by
  have h2 : execInstr (fetch vm) { vm with pc := add32 vm.pc 1 } = .fault e s := h
  have h3 := execInstr_fault _ _ _ _ h2
  subst h3
  exact ⟨rfl, rfl, rfl, rfl, rfl, rfl, rfl, rfl, rfl⟩

/-- C9 witness: the division-by-zero fault of `vmDIV` leaves every
component of the state unchanged. -/
theorem C9_witness :
    ({ vmDIV with pc := add32 vmDIV.pc 1 } : VM).registers = vmDIV.registers ∧
    ({ vmDIV with pc := add32 vmDIV.pc 1 } : VM).index = vmDIV.index ∧
    ({ vmDIV with pc := add32 vmDIV.pc 1 } : VM).free = vmDIV.free ∧
    ({ vmDIV with pc := add32 vmDIV.pc 1 } : VM).memory = vmDIV.memory ∧
    ({ vmDIV with pc := add32 vmDIV.pc 1 } : VM).progsize = vmDIV.progsize ∧
    ({ vmDIV with pc := add32 vmDIV.pc 1 } : VM).capacity = vmDIV.capacity ∧
    ({ vmDIV with pc := add32 vmDIV.pc 1 } : VM).unused = vmDIV.unused ∧
    ({ vmDIV with pc := add32 vmDIV.pc 1 } : VM).input = vmDIV.input ∧
    ({ vmDIV with pc := add32 vmDIV.pc 1 } : VM).output = vmDIV.output :=
  C9_fault_preserves_state vmDIV { vmDIV with pc := add32 vmDIV.pc 1 } .ERR_DIV rfl

/-- C10: a non-faulting cycle executing MOV, ADD, MUL, DIV, NAN or LDI
advances the pc by exactly one, modifies no register other than the
instruction's destination (the A field, or the LDI register field for
opcode 13), and leaves the array table, free chain, memory pool (hence
the program image), `progsize`, `capacity`, `unused` and both I/O
streams unchanged — in particular no input is consumed and no output
is produced. -/
theorem C10_alu_frame (vm s : VM)
    (hop : opcode (fetch vm) = 0 ∨ opcode (fetch vm) = 3 ∨ opcode (fetch vm) = 4 ∨
      opcode (fetch vm) = 5 ∨ opcode (fetch vm) = 6 ∨ opcode (fetch vm) = 13)
    (hpc : vm.pc + 1 < U32)
    (h : stepCycle vm = .ok s) :
    s.pc = vm.pc + 1 ∧
    (∀ r, r ≠ aluDest (fetch vm) → s.registers r = vm.registers r) ∧
    s.index = vm.index ∧ s.free = vm.free ∧ s.memory = vm.memory ∧
    s.progsize = vm.progsize ∧ s.capacity = vm.capacity ∧ s.unused = vm.unused ∧
    s.input = vm.input ∧ s.output = vm.output := by
  have hadd : add32 vm.pc 1 = vm.pc + 1 := Nat.mod_eq_of_lt hpc
  have h2 : execInstr (fetch vm) { vm with pc := add32 vm.pc 1 } = .ok s := h
  rcases hop with hop | hop | hop | hop | hop | hop
  all_goals rw [execInstr, hop] at h2
  all_goals norm_num at h2
  · cases h2
    refine ⟨hadd, ?_, rfl, rfl, rfl, rfl, rfl, rfl, rfl, rfl⟩
    intro r hr
    simp only [execMOV]
    exact Function.update_noteq (by simpa [aluDest, hop] using hr) _ _
  · cases h2
    refine ⟨hadd, ?_, rfl, rfl, rfl, rfl, rfl, rfl, rfl, rfl⟩
    intro r hr
    simp only [execADD]
    exact Function.update_noteq (by simpa [aluDest, hop] using hr) _ _
  · cases h2
    refine ⟨hadd, ?_, rfl, rfl, rfl, rfl, rfl, rfl, rfl, rfl⟩
    intro r hr
    simp only [execMUL]
    exact Function.update_noteq (by simpa [aluDest, hop] using hr) _ _
  · rw [stepDIV] at h2
    split at h2
    · cases h2
    · cases h2
      refine ⟨hadd, ?_, rfl, rfl, rfl, rfl, rfl, rfl, rfl, rfl⟩
      intro r hr
      simp only [execDIV]
      exact Function.update_noteq (by simpa [aluDest, hop] using hr) _ _
  · cases h2
    refine ⟨hadd, ?_, rfl, rfl, rfl, rfl, rfl, rfl, rfl, rfl⟩
    intro r hr
    simp only [execNAN]
    exact Function.update_noteq (by simpa [aluDest, hop] using hr) _ _
  · cases h2
    refine ⟨hadd, ?_, rfl, rfl, rfl, rfl, rfl, rfl, rfl, rfl⟩
    intro r hr
    simp only [execLDI]
    exact Function.update_noteq (by simpa [aluDest, hop] using hr) _ _

/-- C10 witness: executing the ADD of `vmADD` advances the pc to 1 and
changes nothing except (at most) register 0, its destination. -/
theorem C10_witness :
    sADD.pc = vmADD.pc + 1 ∧
    (∀ r, r ≠ aluDest (fetch vmADD) → sADD.registers r = vmADD.registers r) ∧
    sADD.index = vmADD.index ∧ sADD.free = vmADD.free ∧ sADD.memory = vmADD.memory ∧
    sADD.progsize = vmADD.progsize ∧ sADD.capacity = vmADD.capacity ∧
    sADD.unused = vmADD.unused ∧ sADD.input = vmADD.input ∧ sADD.output = vmADD.output :=
  C10_alu_frame vmADD sADD (Or.inr (Or.inl (by decide))) (by decide) rfl

end HW1
